import Mathlib

/-!
# Weather panel (`src/src/weather.jsx`)

A shallow embedding of the `Weather` React component: the JavaScript values it
reads from the fetched forecast document, the built-in operations it calls on
them (`parseInt`, `String.prototype.includes`, property access, truthiness),
the three helper closures `getTempData`, `getWeatherIcon`, `getWeatherClass`,
the render function, and the state machine made of the five `useState` cells
together with the `mounted` flag of every run of the `useEffect` callback.

Conventions.
* A thrown JavaScript exception is `Except.error`; a normal completion is
  `Except.ok`.
* A Number of the document is carried by its decimal rendering (what
  `String(n)` gives), as the component only ever tests such a number for
  truthiness or converts it to a string. The result of `parseInt` is `NaN`
  (`none`), a finite double, which holds an integer, or an infinity; the sign
  of zero is not kept.
* A string is a Lean `String`, that is well-formed text; it is indexed by
  UTF-16 code unit, as in the source.
* `new Date(v).getHours()` depends on the host's date parser and time zone; it
  is a parameter `getHours` of everything that uses it.
-/

namespace WeatherPanel

/-! ## JavaScript values -/

/-- The exceptions the component can raise are all `TypeError`s. -/
inductive JsError where
  | typeError
  deriving DecidableEq, Repr

/-- A JavaScript value as produced by `JSON.parse`, plus `undefined`, which
property access yields for a missing property. -/
inductive JSValue where
  | undefined
  | null
  | bool (b : Bool)
  | num (repr : String)
  | str (s : String)
  | arr (items : List JSValue)
  | obj (props : List (String × JSValue))
  deriving Repr

/-- Own-property test on the property list of an object. -/
def hasOwn (props : List (String × JSValue)) (key : String) : Bool :=
  props.any fun kv => kv.1 == key

/-- Own-property lookup; a missing property reads as `undefined`. -/
def lookupOwn (props : List (String × JSValue)) (key : String) : JSValue :=
  match props.find? fun kv => kv.1 == key with
  | some kv => kv.2
  | none => .undefined

/-- The truthiness test `!!v`: `undefined`, `null`, `false`, `0`, `NaN` and the
empty string are falsy, everything else (every array and object) is truthy. -/
def truthy : JSValue → Bool
  | .undefined => false
  | .null => false
  | .bool b => b
  | .num repr => !(repr == "0" || repr == "NaN")
  | .str s => !(s == "")
  | .arr _ => true
  | .obj _ => true

/-- The read `v.name` for a data field name used by the component
(`timeSeries`, `areas`, `temps`, `timeDefines`, `weathers`): reading a property
of `undefined` or `null` throws, an object yields its own property, and every
other value has no such property. -/
def getField (v : JSValue) (name : String) : Except JsError JSValue :=
  match v with
  | .undefined => throw .typeError
  | .null => throw .typeError
  | .obj props => pure (lookupOwn props name)
  | _ => pure .undefined

/-- The UTF-16 code units of a text, each as the one-unit string that indexing
reads. A character of the Basic Multilingual Plane is its own unit. A character
beyond it takes two units, the halves of a surrogate pair; a lone half is no
Lean character, and U+FFFD stands for it: like the half it is a non-empty
string without digit or white space, which is all the component can tell of
the result of indexing a string. -/
def utf16Units : List Char → List Char
  | [] => []
  | c :: cs =>
    if c.toNat < 65536 then c :: utf16Units cs
    else Char.ofNat 65533 :: Char.ofNat 65533 :: utf16Units cs

/-- The read `v[i]` for an index `i`: throws on `undefined` and `null`, yields
the element of an array, the one-unit string of a string, the own property
named by the decimal index of an object, and `undefined` otherwise. -/
def getIndex (v : JSValue) (i : Nat) : Except JsError JSValue :=
  match v with
  | .undefined => throw .typeError
  | .null => throw .typeError
  | .arr items => pure (items.getD i .undefined)
  | .str s => pure (match (utf16Units s.toList).get? i with
      | some c => .str (String.singleton c)
      | none => .undefined)
  | .obj props => pure (lookupOwn props (Nat.repr i))
  | _ => pure .undefined

mutual
/-- The abstract operation `ToString`. An array is joined with commas (its
`undefined` and `null` elements read as empty). A plain object reads as
`[object Object]`, unless it has an own property `toString`: a parsed document
holds no functions, so that property is not callable, `Object.prototype.valueOf`
returns the object itself, and the conversion throws a `TypeError`. -/
def toStr : JSValue → Except JsError String
  | .undefined => pure "undefined"
  | .null => pure "null"
  | .bool b => pure (if b then "true" else "false")
  | .num repr => pure repr
  | .str s => pure s
  | .arr items => do
      let parts ← joinParts items
      pure (String.intercalate "," parts)
  | .obj props =>
      if hasOwn props "toString" then throw .typeError else pure "[object Object]"
/-- The element strings of `Array.prototype.join`. -/
def joinParts : List JSValue → Except JsError (List String)
  | [] => pure []
  | v :: vs => do
      let s ← match v with
        | .undefined => pure ""
        | .null => pure ""
        | w => toStr w
      let rest ← joinParts vs
      pure (s :: rest)
end

/-! ## `parseInt` -/

/-- The code points of `WhiteSpace` and `LineTerminator`, which `parseInt`
strips from the start of its input. -/
def isJsWhiteSpace (c : Char) : Bool :=
  let n := c.toNat
  n == 9 || n == 10 || n == 11 || n == 12 || n == 13 || n == 32 || n == 160 ||
  n == 5760 || (8192 ≤ n && n ≤ 8202) || n == 8232 || n == 8233 || n == 8239 ||
  n == 8287 || n == 12288 || n == 65279

/-- The value of a character as a digit in radix up to 36. -/
def digitValue (c : Char) : Option Nat :=
  let n := c.toNat
  if 48 ≤ n ∧ n ≤ 57 then some (n - 48)
  else if 97 ≤ n ∧ n ≤ 122 then some (n - 87)
  else if 65 ≤ n ∧ n ≤ 90 then some (n - 55)
  else none

/-- The digits of the longest leading run of radix-`radix` digits. -/
def leadingDigits (radix : Nat) : List Char → List Nat
  | [] => []
  | c :: cs =>
    match digitValue c with
    | some d => if d < radix then d :: leadingDigits radix cs else []
    | none => []

/-- The integer written by a list of digits, most significant first. -/
def digitsValue (radix : Nat) (ds : List Nat) : Nat :=
  ds.foldl (fun acc d => acc * radix + d) 0

/-- A Number other than `NaN`, as `parseInt` returns it: a finite double, which
holds an integer, or an infinity. -/
inductive JSNumber where
  | finite (value : Int)
  | infinity (negative : Bool)
  deriving DecidableEq, Repr

/-- The number of binary digits of `n`, by halving; the first argument bounds
the number of halvings. -/
def bitLength : Nat → Nat → Nat
  | 0, _ => 0
  | fuel + 1, n => if n = 0 then 0 else bitLength fuel (n / 2) + 1

/-- The double nearest to the natural number `n`, ties to the even mantissa:
`n` itself below `2^53`, and above it `n` rounded to its 53 leading binary
digits. -/
def roundToDouble (n : Nat) : Nat :=
  if n < 9007199254740992 then n
  else
    let shift := bitLength n n - 53
    let q := n >>> shift
    let r := n - (q <<< shift)
    let half := 1 <<< (shift - 1)
    if half < r ∨ (r = half ∧ q % 2 = 1) then (q + 1) <<< shift else q <<< shift

/-- The Number value of the integer of sign `negative` and magnitude `n`: an
infinity from `(2^54 - 1) * 2^970` on, the midpoint between the largest double
and `2^1024`, and the nearest double below it. -/
def toNumber (negative : Bool) (n : Nat) : JSNumber :=
  if 18014398509481983 <<< 970 ≤ n then .infinity negative
  else .finite (if negative then -(roundToDouble n : Int) else (roundToDouble n : Int))

/-- The string part of `parseInt(s)` with no radix argument: skip leading white
space, read an optional sign, switch to radix 16 after `0x` or `0X`, read the
longest run of digits; no digit at all gives `NaN` (`none`), and the digits read
give the Number value of their integer. (Past the 20th decimal digit an
implementation may read zeros instead; the model rounds the exact integer.) -/
def parseIntString (s : String) : Option JSNumber :=
  let trimmed := s.toList.dropWhile isJsWhiteSpace
  let signed : Bool × List Char :=
    match trimmed with
    | '-' :: rest => (true, rest)
    | '+' :: rest => (false, rest)
    | _ => (false, trimmed)
  let based : Nat × List Char :=
    match signed.2 with
    | '0' :: 'x' :: rest => (16, rest)
    | '0' :: 'X' :: rest => (16, rest)
    | _ => (10, signed.2)
  let digits := leadingDigits based.1 based.2
  if digits.isEmpty then none else some (toNumber signed.1 (digitsValue based.1 digits))

/-- The call `parseInt(v)`: convert with `ToString` (which may throw), then parse. -/
def parseInt (v : JSValue) : Except JsError (Option JSNumber) := do
  let s ← toStr v
  pure (parseIntString s)

/-! ## `String.prototype.includes` -/

/-- Substring test on character lists. -/
def includesChars : List Char → List Char → Bool
  | [], needle => needle.isEmpty
  | c :: cs, needle => needle.isPrefixOf (c :: cs) || includesChars cs needle

/-- The call `text.includes(needle)` on a string. -/
def strIncludes (text needle : String) : Bool :=
  includesChars text.toList needle.toList

/-- Whether a value is the string `needle` (the comparison made by
`Array.prototype.includes` against a string). -/
def isStr (needle : String) : JSValue → Bool
  | .str s => s == needle
  | _ => false

/-- The call `text.includes(needle)` on an arbitrary value: strings search for a
substring, arrays for an element equal to `needle`; on every other value
`includes` is missing or not a function and the call throws. -/
def includes (text : JSValue) (needle : String) : Except JsError Bool :=
  match text with
  | .str s => pure (strIncludes s needle)
  | .arr items => pure (items.any (isStr needle))
  | _ => throw .typeError

/-! ## `getTempData` (lines 45-58) -/

/-- One chart point `{ time, temp }`; `temp = none` is `NaN`. -/
structure TempPoint where
  time : String
  temp : Option JSNumber
  deriving DecidableEq, Repr

/-- The expression `new Date(time).getHours() + "時"`. The constructor first
converts an array or object to a primitive, which throws exactly when `ToString`
does; `getHours` renders the hour the host then reports. -/
def hourLabel (getHours : JSValue → String) (time : JSValue) : Except JsError String := do
  let _ ← toStr time
  pure (getHours time ++ "時")

/-- The callback of `times.map` at element `time`, index `i`. -/
def tempPoint (getHours : JSValue → String) (temps : JSValue) (time : JSValue) (i : Nat) :
    Except JsError TempPoint := do
  let label ← hourLabel getHours time
  let temp ← parseInt (← getIndex temps i)
  pure { time := label, temp := temp }

/-- The loop of `Array.prototype.map` from index `i` on; the first callback
that throws aborts the whole call. -/
def mapFrom {β : Type} (f : JSValue → Nat → Except JsError β) :
    List JSValue → Nat → Except JsError (List β)
  | [], _ => pure []
  | v :: vs, i => do
      let x ← f v i
      let xs ← mapFrom f vs (i + 1)
      pure (x :: xs)

/-- The call `times.map(callback)`: only an array has a callable `map`. -/
def arrayMap {β : Type} (times : JSValue) (f : JSValue → Nat → Except JsError β) :
    Except JsError (List β) :=
  match times with
  | .arr items => mapFrom f items 0
  | _ => throw .typeError

/-- The test `!isNaN(item.temp)` of the filter. -/
def notNaN (item : TempPoint) : Bool := item.temp.isSome

/-- The expression `weatherData[0].timeSeries[n]`. -/
def timeSeriesAt (weatherData : JSValue) (n : Nat) : Except JsError JSValue := do
  getIndex (← getField (← getIndex weatherData 0) "timeSeries") n

/-- The expression `block.areas[0].name` for a field `name` of the first area. -/
def firstAreaField (block : JSValue) (name : String) : Except JsError JSValue := do
  getField (← getIndex (← getField block "areas") 0) name

/-- The body of the `try` block of `getTempData`. -/
def getTempDataTry (getHours : JSValue → String) (weatherData : JSValue) :
    Except JsError (List TempPoint) := do
  if !truthy weatherData then return []
  if !truthy (← timeSeriesAt weatherData 2) then return []
  let timeSeries2 ← timeSeriesAt weatherData 2
  let temps ← firstAreaField timeSeries2 "temps"
  let times ← getField timeSeries2 "timeDefines"
  if !truthy temps || !truthy times then return []
  let items ← arrayMap times (tempPoint getHours temps)
  return (items.filter notNaN).take 8

/-- The closure `getTempData`: the `try` body, with `catch { return []; }`. -/
def getTempData (getHours : JSValue → String) (weatherData : JSValue) :
    Except JsError (List TempPoint) :=
  tryCatch (getTempDataTry getHours weatherData) fun _ => pure []

/-! ## `getWeatherIcon` and `getWeatherClass` (lines 60-78) -/

/-- The closure `getWeatherIcon`. -/
def getWeatherIcon (text : JSValue) : Except JsError String := do
  if ← includes text "雪" then return "❄️"
  if ← includes text "雨" then
    if ← includes text "晴" then return "🌦️"
    if ← (includes text "曇" <||> includes text "くもり") then return "🌧️"
    return "☔"
  if ← (includes text "晴" <&&> (includes text "曇" <||> includes text "くもり")) then
    return "🌤️"
  if ← includes text "晴" then return "☀️"
  if ← (includes text "曇" <||> includes text "くもり") then return "☁️"
  return "✨"

/-- The closure `getWeatherClass`. -/
def getWeatherClass (text : JSValue) : Except JsError String := do
  if ← includes text "雪" then return "status-snow"
  if ← includes text "雨" then return "status-rain"
  if ← includes text "晴" then return "status-sun"
  return "status-cloud"

/-- The icon precedence as the specification words it, on the four marker
tests of a string. -/
def iconFor (text : String) : String :=
  let snow := strIncludes text "雪"
  let rain := strIncludes text "雨"
  let sun := strIncludes text "晴"
  let cloud := strIncludes text "曇" || strIncludes text "くもり"
  if snow then "❄️"
  else if rain then (if sun then "🌦️" else if cloud then "🌧️" else "☔")
  else if sun && cloud then "🌤️"
  else if sun then "☀️"
  else if cloud then "☁️"
  else "✨"

/-- The style class precedence as the specification words it. -/
def styleClassFor (text : String) : String :=
  if strIncludes text "雪" then "status-snow"
  else if strIncludes text "雨" then "status-rain"
  else if strIncludes text "晴" then "status-sun"
  else "status-cloud"

/-! ## The render function (lines 80-151) -/

/-- What is shown under the today card when the detail is open. -/
inductive DetailView where
  | chart (data : List TempPoint)
  | noData
  deriving DecidableEq, Repr

/-- The conditional `chartData.length > 0 ? <chart> : <no-data message>`. -/
def detailView (chartData : List TempPoint) : DetailView :=
  if chartData.length > 0 then .chart chartData else .noData

/-- One weather card of the card container. -/
structure Card where
  weatherClass : String
  clickable : Bool
  badge : String
  icon : String
  text : JSValue
  tapHint : Option String
  detail : Option DetailView

/-- The three outcomes of a render that completes; the header with the region
tabs, drawn above the last two, is left out. -/
inductive View where
  | error (message : String)
  | loading
  | cards (cards : List Card)

/-- The callback of `weathers.slice(0, 3).map`, at element `weather`, index
`index`. -/
def weatherCard (chartData : List TempPoint) (showDetail : Bool) (weather : JSValue)
    (index : Nat) : Except JsError Card := do
  let weatherClass ← getWeatherClass weather
  let icon ← getWeatherIcon weather
  pure {
    weatherClass := weatherClass
    clickable := index == 0
    badge := ["今日", "明日", "明後日"].getD index ""
    icon := icon
    text := weather
    tapHint := if index == 0 then some (if showDetail then "閉じる" else "気温") else none
    detail := if index == 0 && showDetail then some (detailView chartData) else none }

/-- The call `weathers.slice(0, 3).map(callback)`. Reading `slice` off
`undefined` or `null` throws; a string has `slice` but its result has no `map`;
numbers, booleans and objects have no callable `slice`. -/
def sliceMap (weathers : JSValue) (f : JSValue → Nat → Except JsError Card) :
    Except JsError (List Card) :=
  match weathers with
  | .arr items => mapFrom f (items.take 3) 0
  | _ => throw .typeError

/-- The card container of line 105:
`weatherData[0].timeSeries[0].areas[0].weathers.slice(0, 3).map(...)`. -/
def cardContainer (chartData : List TempPoint) (showDetail : Bool) (weatherData : JSValue) :
    Except JsError (List Card) := do
  let weathers ← firstAreaField (← timeSeriesAt weatherData 0) "weathers"
  sliceMap weathers (weatherCard chartData showDetail)

/-! ## The component state and its effect (lines 5-43) -/

/-- A region of the registry. -/
structure Area where
  name : String
  code : String
  deriving DecidableEq, Repr

/-- The registry `KANTO_AREAS`. -/
def KANTO_AREAS : List Area := [
  { name := "東京", code := "130000" },
  { name := "神奈川", code := "140000" },
  { name := "千葉", code := "120000" },
  { name := "埼玉", code := "110000" },
  { name := "茨城", code := "080000" },
  { name := "栃木", code := "090000" },
  { name := "群馬", code := "100000" }]

/-- A tab index: the tabs are produced by `KANTO_AREAS.map`, so a click always
carries an index of the registry. -/
abbrev RegionIndex := Fin 7

/-- The entry `KANTO_AREAS[i]`. -/
def areaAt (i : RegionIndex) : Area :=
  KANTO_AREAS.getD i.val { name := "", code := "" }

/-- The five `useState` cells. `error` is `none` for `null` and `some message`
for a caught `Error` object (always truthy). -/
structure PanelState where
  currentAreaIndex : RegionIndex
  weatherData : JSValue
  loading : Bool
  error : Option String
  showDetail : Bool

/-- The component function `Weather`, as a function from the five cells to the
element it returns or the exception it throws. -/
def Weather (getHours : JSValue → String) (s : PanelState) : Except JsError View := do
  if let some message := s.error then return .error message
  let chartData ← getTempData getHours s.weatherData
  if s.loading then return .loading
  let cards ← cardContainer chartData s.showDetail s.weatherData
  return .cards cards

/-- How the request of one `fetchData` call ends. -/
inductive FetchResult where
  | rejected (message : String)
  | badStatus
  | badBody (message : String)
  | json (data : JSValue)

/-- The part of `fetchData` that runs once the request has ended, reading the
flag `mounted` of its own effect run: `setWeatherData(data)` on success,
`setError(err)` from the `catch` otherwise, `setLoading(false)` from the
`finally`, each only `if (mounted)`. -/
def settle (mounted : Bool) (r : FetchResult) (s : PanelState) : PanelState :=
  let afterTry : PanelState :=
    match r with
    | .json data => if mounted then { s with weatherData := data } else s
    | .badStatus => if mounted then { s with error := some "通信エラー" } else s
    | .rejected message => if mounted then { s with error := some message } else s
    | .badBody message => if mounted then { s with error := some message } else s
  if mounted then { afterTry with loading := false } else afterTry

/-- The mounted component: its cells, and the `mounted` flag of every run of the
effect so far, oldest first. Run number `k` issued fetch number `k`. -/
structure Panel where
  st : PanelState
  runs : List Bool

/-- The cleanup `() => { mounted = false; }` of the latest effect run. -/
def cleanup : List Bool → List Bool
  | [] => []
  | [_] => [false]
  | m :: ms => m :: cleanup ms

/-- One run of the effect: the cleanup of the previous run, then a new run with
`mounted = true` whose `fetchData` calls `setLoading(true)` and
`setShowDetail(false)` before it awaits the request. -/
def runEffect (p : Panel) : Panel :=
  { st := { p.st with loading := true, showDetail := false }
    runs := cleanup p.runs ++ [true] }

/-- A click on tab `i`: `setCurrentAreaIndex(i)`, and a new run of the effect
when its dependency `currentArea.code` has changed. -/
def selectRegion (p : Panel) (i : RegionIndex) : Panel :=
  let selected : Panel := { p with st := { p.st with currentAreaIndex := i } }
  if (areaAt i).code = (areaAt p.st.currentAreaIndex).code then selected
  else runEffect selected

/-- The request of effect run `k` ends with `r`. -/
def fetchSettled (p : Panel) (k : Nat) (r : FetchResult) : Panel :=
  match p.runs.get? k with
  | some mounted => { p with st := settle mounted r p.st }
  | none => p

/-- A click on the today card: `setShowDetail(!showDetail)`. -/
def toggleDetail (p : Panel) : Panel :=
  { p with st := { p.st with showDetail := !p.st.showDetail } }

/-- The events of the panel. -/
inductive Event where
  | selectRegion (i : RegionIndex)
  | fetchSettled (k : Nat) (r : FetchResult)
  | toggleDetail

/-- The step function of the panel. Every event is accepted in every state; the
component offers the clicks only while the matching element is drawn and a
request ends only once, so every run of the component is a run of this
machine. -/
def step (p : Panel) : Event → Panel
  | .selectRegion i => selectRegion p i
  | .fetchSettled k r => fetchSettled p k r
  | .toggleDetail => toggleDetail p

/-- The panel after the sequence of events `es`. -/
def run (p : Panel) (es : List Event) : Panel :=
  es.foldl step p

/-- The component after mounting: the initial cells and the first run of the
effect, with its request in flight. -/
def init : Panel :=
  { st := { currentAreaIndex := 0, weatherData := .null, loading := true, error := none,
            showDetail := false }
    runs := [true] }

/-- The states the panel can reach from `init`. -/
def Reachable (p : Panel) : Prop :=
  ∃ es : List Event, run init es = p

/-- The number of the latest effect run, whose fetch is the current one. -/
def latestFetch (p : Panel) : Nat :=
  p.runs.length - 1

/-! ## Reference descriptions of the hourly series -/

/-- Whether an evaluation completes without throwing. -/
def completes {α : Type} : Except JsError α → Bool
  | .ok _ => true
  | .error _ => false

/-- Whether every conversion made by the `map` callback completes: the one of
each timestamp by the `Date` constructor and the one of `temps[i]` by
`parseInt`, for every index `i` of `times`. -/
def conversionsComplete (times temps : List JSValue) : Bool :=
  times.all (fun t => completes (toStr t)) &&
    (List.range times.length).all fun i => completes (toStr (temps.getD i .undefined))

/-- The point of index `i` when `parseInt(temps[i])` is a number, nothing
otherwise. -/
def pairAt (getHours : JSValue → String) (times temps : List JSValue) (i : Nat) :
    Option TempPoint :=
  match parseInt (temps.getD i .undefined) with
  | .ok (some z) => some { time := getHours (times.getD i .undefined) ++ "時", temp := some z }
  | _ => none

/-- The hourly series as the specification words it: the pairs of hour label
and parsed temperature over the indices of `times`, in increasing order, at
which the temperature parses to a number, cut to the first 8. -/
def hourlySeries (getHours : JSValue → String) (times temps : List JSValue) : List TempPoint :=
  ((List.range times.length).filterMap (pairAt getHours times temps)).take 8

/-- The same series over the indices common to both arrays only. -/
def alignedSeries (getHours : JSValue → String) (times temps : List JSValue) : List TempPoint :=
  ((List.range (min times.length temps.length)).filterMap (pairAt getHours times temps)).take 8

/-! ## Sample inputs -/

/-- A host whose local time zone is the one the timestamps are written in: the
hour of `YYYY-MM-DDTHH:MM:SS+09:00` is `HH` without its leading zero, and a
value that is no such string has no hour (`NaN`). -/
def hostHours : JSValue → String
  | .str s =>
    match (s.toList.drop 11).take 2 with
    | ['0', d] => String.singleton d
    | [c, d] => String.mk [c, d]
    | _ => "NaN"
  | _ => "NaN"

/-- The timestamp of hour `hh` on a fixed day. -/
def stamp (hh : String) : JSValue :=
  .str ("2024-05-01T" ++ hh ++ ":00:00+09:00")

/-- The block at time-series position 2 with the given timestamps and
first-area temperatures. -/
def tempBlock (times temps : JSValue) : JSValue :=
  .obj [("timeDefines", times), ("areas", .arr [.obj [("temps", temps)]])]

/-- A forecast document with three daily weather texts and the given block at
position 2. -/
def forecastDoc (times temps : JSValue) : JSValue :=
  .arr [.obj [("timeSeries", .arr [
    .obj [("areas", .arr [.obj [("weathers", .arr [.str "晴れ", .str "くもり", .str "雨"])]])],
    .obj [],
    tempBlock times temps])]]

/-- The four timestamps of hours 6, 9, 12 and 15. -/
def fourStamps : List JSValue :=
  [stamp "06", stamp "09", stamp "12", stamp "15"]

/-- The panel once the first fetch has delivered `data`. -/
def loadedPanel (data : JSValue) : Panel :=
  run init [.fetchSettled 0 (.json data)]

/-- The digit `1` followed by 400 zeros: an integer beyond the range of a
double. -/
def hugeDigits : String :=
  String.mk ('1' :: List.replicate 400 '0')

/-! ## Facts about `getTempData` -/

/-- The `try` body, with its early returns written out as a cascade of tests. -/
theorem getTempDataTry_eq (gh : JSValue → String) (doc : JSValue) :
    getTempDataTry gh doc =
      if !truthy doc then .ok []
      else match timeSeriesAt doc 2 with
        | .error e => .error e
        | .ok block =>
          if !truthy block then .ok []
          else match firstAreaField block "temps" with
            | .error e => .error e
            | .ok temps =>
              match getField block "timeDefines" with
              | .error e => .error e
              | .ok times =>
                if !truthy temps || !truthy times then .ok []
                else match arrayMap times (tempPoint gh temps) with
                  | .error e => .error e
                  | .ok items => .ok ((items.filter notNaN).take 8) := by
  unfold getTempDataTry
  cases h1 : truthy doc
  · rfl
  · cases h2 : timeSeriesAt doc 2 with
    | error e => rfl
    | ok block =>
      cases h3 : truthy block
      · simp [bind, Except.bind, pure, Except.pure, h3]
      · cases h4 : firstAreaField block "temps" with
        | error e => simp [bind, Except.bind, pure, Except.pure, h3, h4]
        | ok temps =>
          cases h5 : getField block "timeDefines" with
          | error e => simp [bind, Except.bind, pure, Except.pure, h3, h4, h5]
          | ok times =>
            cases h6 : truthy temps <;> cases h7 : truthy times <;>
              simp [bind, Except.bind, pure, Except.pure, h3, h4, h5, h6, h7]
            cases arrayMap times (tempPoint gh temps) <;> rfl

/-- Either the fallback `[]`, or the filtered and truncated image of `map`. -/
theorem getTempData_shape (gh : JSValue → String) (doc : JSValue) :
    getTempData gh doc = .ok [] ∨
      ∃ items : List TempPoint, getTempData gh doc = .ok ((items.filter notNaN).take 8) := by
  unfold getTempData
  rw [getTempDataTry_eq]
  repeat' split
  all_goals first
    | exact Or.inl rfl
    | exact Or.inr ⟨_, rfl⟩

/-- There is one exception value. -/
theorem error_eq (e : JsError) : e = .typeError := by
  cases e; rfl

/-- When every callback completes, the `map` loop returns the callback values in
index order. -/
theorem mapFrom_ok {β : Type} (f : JSValue → Nat → Except JsError β) (g : JSValue → Nat → β) :
    ∀ (ts : List JSValue) (i : Nat),
      (∀ k, k < ts.length →
        f (ts.getD k .undefined) (i + k) = .ok (g (ts.getD k .undefined) (i + k))) →
      mapFrom f ts i = .ok ((List.range ts.length).map fun k => g (ts.getD k .undefined) (i + k))
  | [], _, _ => rfl
  | t :: ts, i, h => by
    have h0 : f t i = .ok (g t i) := by simpa using h 0 (by simp)
    have hrest : ∀ k, k < ts.length →
        f (ts.getD k .undefined) (i + 1 + k) = .ok (g (ts.getD k .undefined) (i + 1 + k)) := by
      intro k hk
      have := h (k + 1) (by simpa using hk)
      simpa [Nat.add_assoc, Nat.add_comm 1 k] using this
    have ih := mapFrom_ok f g ts (i + 1) hrest
    simp only [mapFrom, h0, ih, bind, Except.bind, pure, Except.pure, List.length_cons,
      List.range_succ_eq_map, List.map_cons, List.map_map, List.getD_cons_zero, Nat.add_zero]
    congr 2
    apply List.map_congr_left
    intro k _
    simp [Nat.add_assoc, Nat.add_comm 1 k]

/-- When the callback throws at some index, the `map` loop throws. -/
theorem mapFrom_error {β : Type} (f : JSValue → Nat → Except JsError β) :
    ∀ (ts : List JSValue) (i k : Nat), k < ts.length →
      completes (f (ts.getD k .undefined) (i + k)) = false →
      mapFrom f ts i = .error .typeError
  | [], _, _, hk, _ => by simp at hk
  | t :: ts, i, 0, _, hc => by
    simp only [List.getD_cons_zero, Nat.add_zero] at hc
    cases hf : f t i with
    | ok x => simp [hf, completes] at hc
    | error e => simp [mapFrom, hf, bind, Except.bind, error_eq e]
  | t :: ts, i, k + 1, hk, hc => by
    have hc' : completes (f (ts.getD k .undefined) (i + 1 + k)) = false := by
      simpa [Nat.add_assoc, Nat.add_comm 1 k] using hc
    have ih := mapFrom_error f ts (i + 1) k (by simpa using hk) hc'
    cases hf : f t i with
    | ok x => simp [mapFrom, hf, ih, bind, Except.bind]
    | error e => simp [mapFrom, hf, bind, Except.bind, error_eq e]

/-- The value the callback produces when nothing throws. -/
theorem tempPoint_of_completes (gh : JSValue → String) (temps : List JSValue) (t : JSValue)
    (i : Nat) (ht : completes (toStr t) = true)
    (hx : completes (toStr (temps.getD i .undefined)) = true) :
    tempPoint gh (.arr temps) t i =
      .ok { time := gh t ++ "時",
            temp := match parseInt (temps.getD i .undefined) with
              | .ok r => r
              | .error _ => none } := by
  cases h1 : toStr t with
  | error e => simp [-List.getD_eq_getElem?_getD, h1, completes] at ht
  | ok a =>
    cases h2 : toStr (temps.getD i .undefined) with
    | error e => simp [-List.getD_eq_getElem?_getD, h2, completes] at hx
    | ok b =>
      simp [-List.getD_eq_getElem?_getD, tempPoint, hourLabel, parseInt, getIndex, h1, h2,
        bind, Except.bind, pure, Except.pure]

/-- The callback throws as soon as one of its two conversions does. -/
theorem tempPoint_throws (gh : JSValue → String) (temps : List JSValue) (t : JSValue)
    (i : Nat)
    (h : completes (toStr t) = false ∨ completes (toStr (temps.getD i .undefined)) = false) :
    completes (tempPoint gh (.arr temps) t i) = false := by
  cases h1 : toStr t with
  | error e =>
    simp [-List.getD_eq_getElem?_getD, tempPoint, hourLabel, h1, bind, Except.bind, completes]
  | ok a =>
    cases h2 : toStr (temps.getD i .undefined) with
    | error e =>
      simp [-List.getD_eq_getElem?_getD, tempPoint, hourLabel, parseInt, getIndex, h1, h2,
        bind, Except.bind, pure, Except.pure, completes]
    | ok b =>
      rcases h with h | h
      · simp [-List.getD_eq_getElem?_getD, h1, completes] at h
      · simp [-List.getD_eq_getElem?_getD, h2, completes] at h

/-- Filtering the mapped points on `!isNaN` keeps the pairs whose temperature
parses. -/
theorem filter_map_pairAt (gh : JSValue → String) (times temps : List JSValue) (l : List Nat) :
    (l.map fun k => ({ time := gh (times.getD k .undefined) ++ "時",
                       temp := match parseInt (temps.getD k .undefined) with
                         | .ok r => r
                         | .error _ => none } : TempPoint)).filter notNaN =
      l.filterMap (pairAt gh times temps) := by
  induction l with
  | nil => rfl
  | cons k l ih =>
    simp only [List.map_cons, List.filterMap_cons, pairAt]
    cases hp : parseInt (temps.getD k .undefined) with
    | error e => simp [-List.getD_eq_getElem?_getD, List.filter_cons, notNaN, ih]
    | ok r =>
      cases r with
      | none => simp [-List.getD_eq_getElem?_getD, List.filter_cons, notNaN, ih]
      | some z => simp [-List.getD_eq_getElem?_getD, List.filter_cons, notNaN, ih]

/-- The `map` loop over the timestamps: the reference series when every
conversion completes, an exception otherwise. -/
theorem series_of_arrays (gh : JSValue → String) (times temps : List JSValue) :
    (tryCatch
        (match arrayMap (.arr times) (tempPoint gh (.arr temps)) with
          | .error e => .error e
          | .ok items => .ok ((items.filter notNaN).take 8))
        fun _ => pure []) =
      (.ok (if conversionsComplete times temps then hourlySeries gh times temps else []) :
        Except JsError (List TempPoint)) := by
  cases hc : conversionsComplete times temps with
  | true =>
    simp only [conversionsComplete, Bool.and_eq_true, List.all_eq_true, List.mem_range] at hc
    have hmap := mapFrom_ok (tempPoint gh (.arr temps))
      (fun t i => { time := gh t ++ "時",
                    temp := match parseInt (temps.getD i .undefined) with
                      | .ok r => r
                      | .error _ => none }) times 0 (by
        intro k hk
        simp only [Nat.zero_add]
        apply tempPoint_of_completes
        · apply hc.1
          rw [List.getD_eq_getElem _ _ hk]
          exact List.getElem_mem _
        · exact hc.2 k hk)
    simp only [arrayMap, hmap, Nat.zero_add]
    rw [filter_map_pairAt]
    rfl
  | false =>
    have hex : ∃ k, k < times.length ∧
        completes (tempPoint gh (.arr temps) (times.getD k .undefined) (0 + k)) = false := by
      simp only [conversionsComplete, Bool.and_eq_false_iff, List.all_eq_false,
        List.mem_range] at hc
      rcases hc with ⟨t, ht, hcomp⟩ | ⟨k, hk, hcomp⟩
      · obtain ⟨k, hk, rfl⟩ := List.mem_iff_getElem.mp ht
        refine ⟨k, hk, ?_⟩
        apply tempPoint_throws
        left
        rw [List.getD_eq_getElem _ _ hk]
        simpa using hcomp
      · refine ⟨k, hk, ?_⟩
        apply tempPoint_throws
        right
        rw [Nat.zero_add]
        simpa using hcomp
    obtain ⟨k, hk, hthrow⟩ := hex
    have herr := mapFrom_error (tempPoint gh (.arr temps)) times 0 k hk hthrow
    simp only [arrayMap, herr]
    rfl

/-- A value on which `v[0].timeSeries[n]` can be read is truthy. -/
theorem truthy_of_timeSeriesAt (doc block : JSValue) (n : Nat)
    (h : timeSeriesAt doc n = .ok block) : truthy doc = true := by
  cases doc with
  | arr items => rfl
  | obj props => rfl
  | undefined => simp [timeSeriesAt, getIndex, bind, Except.bind, throw, throwThe,
      MonadExceptOf.throw] at h
  | null => simp [timeSeriesAt, getIndex, bind, Except.bind, throw, throwThe,
      MonadExceptOf.throw] at h
  | bool b => simp [timeSeriesAt, getIndex, getField, bind, Except.bind, pure, Except.pure,
      throw, throwThe, MonadExceptOf.throw] at h
  | num r => simp [timeSeriesAt, getIndex, getField, bind, Except.bind, pure, Except.pure,
      throw, throwThe, MonadExceptOf.throw] at h
  | str s =>
    exfalso
    have h1 : ∃ v, getIndex (.str s) 0 = .ok v ∧ (v = .undefined ∨ ∃ c, v = .str c) := by
      refine ⟨match (utf16Units s.toList).get? 0 with
        | some c => .str (String.singleton c)
        | none => .undefined, rfl, ?_⟩
      cases (utf16Units s.toList).get? 0 with
      | none => exact Or.inl rfl
      | some c => exact Or.inr ⟨_, rfl⟩
    obtain ⟨v, h1, hv⟩ := h1
    simp only [timeSeriesAt, h1, bind, Except.bind] at h
    rcases hv with rfl | ⟨c, rfl⟩
    · simp [getField, throw, throwThe, MonadExceptOf.throw] at h
    · simp [getField, getIndex, pure, Except.pure, throw, throwThe, MonadExceptOf.throw] at h

/-- A value with an array-valued field is an object, hence truthy. -/
theorem truthy_of_getField_arr (block : JSValue) (name : String) (xs : List JSValue)
    (h : getField block name = .ok (.arr xs)) : truthy block = true := by
  cases block <;>
    first
      | rfl
      | simp [getField, pure, Except.pure, throw, throwThe, MonadExceptOf.throw] at h

/-- The call `parseInt(undefined)` is `NaN`. -/
theorem parseInt_undefined : parseInt .undefined = .ok none := by rfl

/-- There is no pair at an index beyond the end of `temps`. -/
theorem pairAt_beyond (gh : JSValue → String) (times temps : List JSValue) (k : Nat)
    (hk : temps.length ≤ k) : pairAt gh times temps k = none := by
  have hx : temps.getD k .undefined = .undefined := List.getD_eq_default _ _ hk
  simp only [pairAt, hx, parseInt_undefined]

/-- Indices that yield nothing can be cut off the end of the range. -/
theorem filterMap_range_cut {β : Type} (F : Nat → Option β) (m : Nat)
    (hF : ∀ k, m ≤ k → F k = none) :
    ∀ n, m ≤ n → (List.range n).filterMap F = (List.range m).filterMap F := by
  intro n hn
  induction n, hn using Nat.le_induction with
  | base => rfl
  | succ n hmn ih =>
    rw [List.range_succ, List.filterMap_append, ih]
    simp [hF n hmn]

/-- The series over the indices of `times` is the series over the common indices. -/
theorem hourlySeries_eq_aligned (gh : JSValue → String) (times temps : List JSValue) :
    hourlySeries gh times temps = alignedSeries gh times temps := by
  unfold hourlySeries alignedSeries
  rcases Nat.le_total times.length temps.length with h | h
  · rw [Nat.min_eq_left h]
  · rw [Nat.min_eq_right h,
      filterMap_range_cut _ temps.length (fun k hk => pairAt_beyond gh times temps k hk) _ h]

/-- The closure on a document whose block at position 2 holds both arrays. -/
theorem getTempData_of_arrays (gh : JSValue → String) (doc block : JSValue)
    (times temps : List JSValue)
    (hblock : timeSeriesAt doc 2 = .ok block)
    (htimes : getField block "timeDefines" = .ok (.arr times))
    (htemps : firstAreaField block "temps" = .ok (.arr temps)) :
    getTempData gh doc =
      .ok (if conversionsComplete times temps then hourlySeries gh times temps else []) := by
  have hdoc := truthy_of_timeSeriesAt doc block 2 hblock
  have hb := truthy_of_getField_arr block _ times htimes
  rw [← series_of_arrays]
  unfold getTempData
  rw [getTempDataTry_eq]
  have h1 : truthy (.arr temps) = true := rfl
  have h2 : truthy (.arr times) = true := rfl
  simp only [hdoc, hblock, hb, htimes, htemps, h1, h2, Bool.not_true, Bool.or_self,
    Bool.false_eq_true, if_false]

/-! ## The claims about `getTempData` -/

set_option maxRecDepth 100000 in
/-- A digit string beyond the range of a double parses to `Infinity`, which is
not `NaN`: the point is kept. -/
theorem getTempData_keeps_infinity :
    parseInt (.str hugeDigits) = .ok (some (.infinity false)) ∧
    getTempData hostHours (forecastDoc (.arr [stamp "06"]) (.arr [.str hugeDigits])) =
      .ok [{ time := "6時", temp := some (.infinity false) }] :=
  ⟨rfl, rfl⟩

/-- Above `2^53` the parsed integer is rounded to the nearest double. -/
theorem parseInt_rounds :
    parseInt (.str "9007199254740993") = .ok (some (.finite 9007199254740992)) ∧
    parseInt (.str "-9007199254740995") = .ok (some (.finite (-9007199254740996))) ∧
    parseInt (.str "18.5") = .ok (some (.finite 18)) :=
  ⟨rfl, rfl, rfl⟩

/-- C3. For every document, `getTempData` returns a sequence of at most 8
points, and no point of it has a `NaN` temp: the `temp` of every point is a
Number that `parseInt` read off the leading digits of the temperature, which is
an integer held in a double, or an infinity when the digits exceed the range of
a double. -/
theorem getTempData_bounded (getHours : JSValue → String) (weatherData : JSValue) :
    ∃ points : List TempPoint, getTempData getHours weatherData = .ok points ∧
      points.length ≤ 8 ∧
      ∀ point ∈ points, notNaN point = true ∧
        ((∃ z : Int, point.temp = some (.finite z)) ∨
          ∃ negative : Bool, point.temp = some (.infinity negative)) := by
  rcases getTempData_shape getHours weatherData with h | ⟨items, h⟩
  · exact ⟨[], h, by simp, by simp⟩
  · refine ⟨_, h, ?_, ?_⟩
    · simp [List.length_take]
    · intro point hp
      have hmem := List.mem_of_mem_take hp
      have hnan : notNaN point = true := (List.mem_filter.mp hmem).2
      refine ⟨hnan, ?_⟩
      obtain ⟨number, hnumber⟩ := Option.isSome_iff_exists.mp hnan
      cases number with
      | finite z => exact Or.inl ⟨z, hnumber⟩
      | infinity negative => exact Or.inr ⟨negative, hnumber⟩

/-- The detail slot of a card the callback builds. -/
theorem weatherCard_detail (chartData : List TempPoint) (showDetail : Bool)
    (weather : JSValue) (index : Nat) (card : Card)
    (h : weatherCard chartData showDetail weather index = .ok card) :
    card.detail = if index == 0 && showDetail then some (detailView chartData) else none := by
  unfold weatherCard at h
  cases hc : getWeatherClass weather with
  | error e => simp [hc, bind, Except.bind] at h
  | ok cls =>
    cases hi : getWeatherIcon weather with
    | error e => simp [hc, hi, bind, Except.bind] at h
    | ok icon =>
      simp only [hc, hi, bind, Except.bind, pure, Except.pure, Except.ok.injEq] at h
      rw [← h]

/-- A `map` loop that completes on a non-empty list has run its callback on the
head and completed on the tail. -/
theorem mapFrom_cons_ok {β : Type} (f : JSValue → Nat → Except JsError β) (v : JSValue)
    (vs : List JSValue) (i : Nat) (out : List β) (h : mapFrom f (v :: vs) i = .ok out) :
    ∃ x xs, f v i = .ok x ∧ mapFrom f vs (i + 1) = .ok xs ∧ out = x :: xs := by
  unfold mapFrom at h
  cases hx : f v i with
  | error e => simp [hx, bind, Except.bind] at h
  | ok x =>
    cases hxs : mapFrom f vs (i + 1) with
    | error e => simp [hx, hxs, bind, Except.bind] at h
    | ok xs =>
      simp only [hx, hxs, bind, Except.bind, pure, Except.pure, Except.ok.injEq] at h
      exact ⟨x, xs, rfl, rfl, h.symm⟩

/-- Every card of the container has an empty detail slot or the detail view of
the chart data. -/
theorem mapFrom_weatherCard_detail (chartData : List TempPoint) (showDetail : Bool) :
    ∀ (items : List JSValue) (i : Nat) (cards : List Card),
      mapFrom (weatherCard chartData showDetail) items i = .ok cards →
      ∀ card ∈ cards, card.detail = none ∨ card.detail = some (detailView chartData)
  | [], _, cards, h => by
    have hnil : cards = [] := by
      simp only [mapFrom, pure, Except.pure, Except.ok.injEq] at h
      exact h.symm
    simp [hnil]
  | v :: vs, i, cards, h => by
    obtain ⟨x, xs, hx, hxs, rfl⟩ := mapFrom_cons_ok _ v vs i cards h
    intro card hmem
    rcases List.mem_cons.mp hmem with rfl | hrest
    · rw [weatherCard_detail chartData showDetail v i card hx]
      split
      · exact Or.inr rfl
      · exact Or.inl rfl
    · exact mapFrom_weatherCard_detail chartData showDetail vs (i + 1) xs hxs card hrest

/-- The first card of the container, the today card, carries the detail view
exactly when the detail is open. -/
theorem mapFrom_weatherCard_today (chartData : List TempPoint) (showDetail : Bool)
    (items : List JSValue) (cards : List Card)
    (h : mapFrom (weatherCard chartData showDetail) items 0 = .ok cards)
    (today : Card) (htoday : cards.head? = some today) :
    today.detail = if showDetail then some (detailView chartData) else none := by
  cases items with
  | nil =>
    simp only [mapFrom, pure, Except.pure, Except.ok.injEq] at h
    rw [← h] at htoday
    simp at htoday
  | cons v vs =>
    obtain ⟨x, xs, hx, _, rfl⟩ := mapFrom_cons_ok _ v vs 0 cards h
    simp only [List.head?_cons, Option.some.injEq] at htoday
    rw [← htoday, weatherCard_detail chartData showDetail v 0 x hx]
    simp

/-- A render that returns cards has computed the chart data with `getTempData`
and built the cards with the `map` loop over at most three entries of an
array. -/
theorem Weather_cards (getHours : JSValue → String) (s : PanelState) (cards : List Card)
    (h : Weather getHours s = .ok (.cards cards)) :
    ∃ chartData items, getTempData getHours s.weatherData = .ok chartData ∧
      timeSeriesAt s.weatherData 0 ≠ .error .typeError ∧
      mapFrom (weatherCard chartData s.showDetail) (List.take 3 items) 0 = .ok cards := by
  unfold Weather at h
  cases herr : s.error with
  | some message => simp [herr, pure, Except.pure] at h
  | none =>
    cases hchart : getTempData getHours s.weatherData with
    | error e => simp [herr, hchart, bind, Except.bind, pure, Except.pure] at h
    | ok chartData =>
      cases hload : s.loading with
      | true => simp [herr, hchart, hload, bind, Except.bind, pure, Except.pure] at h
      | false =>
        cases hcont : cardContainer chartData s.showDetail s.weatherData with
        | error e =>
          simp [herr, hchart, hload, hcont, bind, Except.bind, pure, Except.pure] at h
        | ok built =>
          simp only [herr, hchart, hload, hcont, bind, Except.bind, pure, Except.pure,
            Bool.false_eq_true, if_false, Except.ok.injEq, View.cards.injEq] at h
          subst h
          unfold cardContainer at hcont
          cases hblock : timeSeriesAt s.weatherData 0 with
          | error e => simp [hblock, bind, Except.bind] at hcont
          | ok block =>
            cases hws : firstAreaField block "weathers" with
            | error e => simp [hblock, hws, bind, Except.bind] at hcont
            | ok weathers =>
              simp only [hblock, hws, bind, Except.bind] at hcont
              cases weathers with
              | arr items => exact ⟨chartData, items, rfl, by simp, hcont⟩
              | undefined => simp [sliceMap, throw, throwThe, MonadExceptOf.throw] at hcont
              | null => simp [sliceMap, throw, throwThe, MonadExceptOf.throw] at hcont
              | bool b => simp [sliceMap, throw, throwThe, MonadExceptOf.throw] at hcont
              | num r => simp [sliceMap, throw, throwThe, MonadExceptOf.throw] at hcont
              | str t => simp [sliceMap, throw, throwThe, MonadExceptOf.throw] at hcont
              | obj props => simp [sliceMap, throw, throwThe, MonadExceptOf.throw] at hcont

/-- On an absent (falsy) document the component draws no card: it shows the
error or the loading indicator, or line 105 throws. -/
theorem Weather_no_cards_of_falsy (getHours : JSValue → String) (s : PanelState)
    (hdoc : truthy s.weatherData = false) (cards : List Card) :
    Weather getHours s ≠ .ok (.cards cards) := by
  intro h
  obtain ⟨_, _, _, hblock, _⟩ := Weather_cards getHours s cards h
  cases hb : timeSeriesAt s.weatherData 0 with
  | error e => exact hblock (by rw [hb, error_eq e])
  | ok block =>
    have := truthy_of_timeSeriesAt s.weatherData block 0 hb
    rw [hdoc] at this
    exact absurd this (by decide)

/-- C5. `getTempData` never throws: on every document value it returns a
sequence. The sequence is empty when the document is absent (falsy), when the
block at time-series position 2 is missing (reading it throws or gives a falsy
value), and when the first-area `temps` or the `timeDefines` of that block is
missing. Whenever the sequence is empty and the component draws its cards with
the detail open, the today card carries the no-data message, and no card
carries a chart. -/
theorem getTempData_total (getHours : JSValue → String) (s : PanelState) :
    (∃ points : List TempPoint, getTempData getHours s.weatherData = .ok points) ∧
    (truthy s.weatherData = false → getTempData getHours s.weatherData = .ok []) ∧
    ((∀ block, timeSeriesAt s.weatherData 2 = .ok block → truthy block = false) →
      getTempData getHours s.weatherData = .ok []) ∧
    (∀ block, timeSeriesAt s.weatherData 2 = .ok block →
      (∀ temps, firstAreaField block "temps" = .ok temps → truthy temps = false) ∨
        (∀ times, getField block "timeDefines" = .ok times → truthy times = false) →
      getTempData getHours s.weatherData = .ok []) ∧
    (getTempData getHours s.weatherData = .ok [] → s.showDetail = true →
      ∀ cards, Weather getHours s = .ok (.cards cards) →
        (∀ today, cards.head? = some today → today.detail = some .noData) ∧
        ∀ card ∈ cards, ∀ data, card.detail ≠ some (.chart data)) := by
  refine ⟨?_, ?_, ?_, ?_, ?_⟩
  · rcases getTempData_shape getHours s.weatherData with h | ⟨items, h⟩
    · exact ⟨_, h⟩
    · exact ⟨_, h⟩
  · intro h
    unfold getTempData
    rw [getTempDataTry_eq]
    simp only [h, Bool.not_false, if_true]
    rfl
  · intro h
    unfold getTempData
    rw [getTempDataTry_eq]
    split
    · rfl
    · cases hb : timeSeriesAt s.weatherData 2 with
      | error e => rfl
      | ok block =>
        simp only [h block hb, Bool.not_false, if_true]
        rfl
  · intro block hb h
    unfold getTempData
    rw [getTempDataTry_eq]
    simp only [hb]
    split
    · rfl
    · split
      · rfl
      · cases ht : firstAreaField block "temps" with
        | error e => rfl
        | ok temps =>
          cases hd : getField block "timeDefines" with
          | error e => rfl
          | ok times =>
            rcases h with h | h
            · simp only [h temps ht, Bool.not_false, Bool.true_or, if_true]
              rfl
            · simp only [h times hd, Bool.not_false, Bool.or_true, if_true]
              rfl
  · intro hempty hopen cards hcards
    obtain ⟨chartData, items, hchart, _, hmap⟩ := Weather_cards getHours s cards hcards
    have hnil : chartData = [] := by
      rw [hempty] at hchart
      exact (Except.ok.inj hchart).symm
    subst hnil
    rw [hopen] at hmap
    constructor
    · intro today htoday
      have := mapFrom_weatherCard_today [] true _ cards hmap today htoday
      simpa [detailView] using this
    · intro card hmem data hdata
      rcases mapFrom_weatherCard_detail [] true _ 0 cards hmap card hmem with hnone | hview
      · rw [hnone] at hdata
        exact absurd hdata (by simp)
      · rw [hview] at hdata
        simp [detailView] at hdata

/-- C5, on the panel that shows a document whose block at position 2 has no
`temps`, with the detail open: the sequence is empty, three cards are drawn,
and the today card carries the no-data message. -/
theorem getTempData_total_witness :
    getTempData hostHours
        (toggleDetail (loadedPanel (forecastDoc (.arr fourStamps) .undefined))).st.weatherData =
      .ok [] ∧
    ∃ today tomorrow dayAfter,
      Weather hostHours
          (toggleDetail (loadedPanel (forecastDoc (.arr fourStamps) .undefined))).st =
        .ok (.cards [today, tomorrow, dayAfter]) ∧
      today.detail = some .noData :=
  ⟨(getTempData_total hostHours
      (toggleDetail (loadedPanel (forecastDoc (.arr fourStamps) .undefined))).st).2.2.2.1
      (tempBlock (.arr fourStamps) .undefined) rfl
      (Or.inl fun temps h => by cases h; rfl),
   _, _, _, rfl,
   ((getTempData_total hostHours
      (toggleDetail (loadedPanel (forecastDoc (.arr fourStamps) .undefined))).st).2.2.2.2
      rfl rfl _ rfl).1 _ rfl⟩

/-- C4, amended. For every document whose block at time-series position 2 has a
timestamps array `times` and a first-area temperature array `temps`:
when no conversion throws (the one of a timestamp by `new Date`, the one of
`temps[i]` by `parseInt`, `i` an index of `times`), `getTempData` returns
exactly the first 8 of the pairs (hour of `times[i]` followed by `時`,
`parseInt(temps[i])`) over the indices `i` of `times`, in increasing order, at
which `parseInt(temps[i])` is a number; when one of these conversions throws,
the `catch` makes it return the empty sequence. -/
theorem getTempData_series (getHours : JSValue → String) (weatherData block : JSValue)
    (times temps : List JSValue)
    (hblock : timeSeriesAt weatherData 2 = .ok block)
    (htimes : getField block "timeDefines" = .ok (.arr times))
    (htemps : firstAreaField block "temps" = .ok (.arr temps)) :
    getTempData getHours weatherData =
      .ok (if conversionsComplete times temps then hourlySeries getHours times temps
           else []) :=
  getTempData_of_arrays getHours weatherData block times temps hblock htimes htemps

/-- C4, the example of the specification: temperatures `18`, `20`, `x`, `22` at
hours 6, 9, 12, 15 give the points of hours 6, 9 and 15. -/
theorem getTempData_series_witness :
    getTempData hostHours
        (forecastDoc (.arr fourStamps) (.arr [.str "18", .str "20", .str "x", .str "22"])) =
      .ok [{ time := "6時", temp := some (.finite 18) }, { time := "9時", temp := some (.finite 20) },
           { time := "15時", temp := some (.finite 22) }] :=
  (getTempData_series hostHours
      (forecastDoc (.arr fourStamps) (.arr [.str "18", .str "20", .str "x", .str "22"]))
      (tempBlock (.arr fourStamps) (.arr [.str "18", .str "20", .str "x", .str "22"]))
      fourStamps [.str "18", .str "20", .str "x", .str "22"] rfl rfl rfl).trans rfl

/-- C4 as stated fails: with temperatures `18` and an object that has an own
property `toString`, `parseInt` throws on the second entry, so `getTempData`
returns the empty sequence although the pair of index 0 parses: the result is
not the series of the parseable pairs. -/
theorem throwing_entry_empties_series :
    timeSeriesAt
        (forecastDoc (.arr [stamp "06", stamp "09"])
          (.arr [.str "18", .obj [("toString", .num "1")]])) 2 =
      .ok (tempBlock (.arr [stamp "06", stamp "09"])
          (.arr [.str "18", .obj [("toString", .num "1")]])) ∧
    parseInt (.obj [("toString", .num "1")]) = .error .typeError ∧
    getTempData hostHours
        (forecastDoc (.arr [stamp "06", stamp "09"])
          (.arr [.str "18", .obj [("toString", .num "1")]])) = .ok [] ∧
    hourlySeries hostHours [stamp "06", stamp "09"]
        [.str "18", .obj [("toString", .num "1")]] = [{ time := "6時", temp := some (.finite 18) }] ∧
    getTempData hostHours
        (forecastDoc (.arr [stamp "06", stamp "09"])
          (.arr [.str "18", .obj [("toString", .num "1")]])) ≠
      .ok (hourlySeries hostHours [stamp "06", stamp "09"]
        [.str "18", .obj [("toString", .num "1")]]) :=
  ⟨rfl, rfl, rfl, rfl, fun h =>
    absurd (show (Except.ok [] : Except JsError (List TempPoint)) =
      .ok [{ time := "6時", temp := some (.finite 18) }] from h) (by simp)⟩

/-- C6, amended. For every document whose block at time-series position 2 has a
first-area `temps` array and a `timeDefines` array of different lengths,
`getTempData` does not give up: when no conversion throws it returns the first 8
of the pairs over the indices common to both arrays at which the temperature
parses (timestamps beyond the end of `temps` are dropped, temperatures beyond
the end of `timeDefines` are never read); when a conversion throws it returns
the empty sequence. -/
theorem getTempData_mismatched (getHours : JSValue → String) (weatherData block : JSValue)
    (times temps : List JSValue)
    (hblock : timeSeriesAt weatherData 2 = .ok block)
    (htimes : getField block "timeDefines" = .ok (.arr times))
    (htemps : firstAreaField block "temps" = .ok (.arr temps))
    (_hlen : times.length ≠ temps.length) :
    getTempData getHours weatherData =
      .ok (if conversionsComplete times temps then alignedSeries getHours times temps
           else []) := by
  rw [getTempData_of_arrays getHours weatherData block times temps hblock htimes htemps,
    hourlySeries_eq_aligned]

/-- C6, amended, at four timestamps and two temperatures. -/
theorem getTempData_mismatched_witness :
    getTempData hostHours (forecastDoc (.arr fourStamps) (.arr [.str "18", .str "20"])) =
      .ok [{ time := "6時", temp := some (.finite 18) }, { time := "9時", temp := some (.finite 20) }] :=
  (getTempData_mismatched hostHours
      (forecastDoc (.arr fourStamps) (.arr [.str "18", .str "20"]))
      (tempBlock (.arr fourStamps) (.arr [.str "18", .str "20"]))
      fourStamps [.str "18", .str "20"] rfl rfl rfl (by decide)).trans rfl

/-- C6 as stated fails: four timestamps with two temperatures, and two
timestamps with four temperatures, both give two points, not the empty
sequence. -/
theorem mismatched_lengths_not_empty :
    getTempData hostHours (forecastDoc (.arr fourStamps) (.arr [.str "18", .str "20"])) =
      .ok [{ time := "6時", temp := some (.finite 18) }, { time := "9時", temp := some (.finite 20) }] ∧
    getTempData hostHours (forecastDoc (.arr fourStamps) (.arr [.str "18", .str "20"])) ≠
      .ok [] ∧
    getTempData hostHours
        (forecastDoc (.arr [stamp "06", stamp "09"])
          (.arr [.str "18", .str "20", .str "x", .str "22"])) =
      .ok [{ time := "6時", temp := some (.finite 18) }, { time := "9時", temp := some (.finite 20) }] ∧
    getTempData hostHours
        (forecastDoc (.arr [stamp "06", stamp "09"])
          (.arr [.str "18", .str "20", .str "x", .str "22"])) ≠ .ok [] :=
  ⟨rfl,
   fun h => absurd (show (Except.ok [{ time := "6時", temp := some (.finite 18) },
      { time := "9時", temp := some (.finite 20) }] : Except JsError (List TempPoint)) = .ok [] from h)
      (by simp),
   rfl,
   fun h => absurd (show (Except.ok [{ time := "6時", temp := some (.finite 18) },
      { time := "9時", temp := some (.finite 20) }] : Except JsError (List TempPoint)) = .ok [] from h)
      (by simp)⟩

/-! ## The classifier -/

/-- The substring test is the infix relation on character lists. -/
theorem includesChars_iff_infix (needle : List Char) :
    ∀ text : List Char, includesChars text needle = true ↔ needle <:+: text
  | [] => by
    simp [includesChars, List.isEmpty_iff]
  | c :: cs => by
    rw [includesChars, Bool.or_eq_true, includesChars_iff_infix needle cs,
      List.isPrefixOf_iff_prefix, List.infix_cons_iff]

/-- The registry has the seven entries the tab indices range over. -/
theorem KANTO_AREAS_length : KANTO_AREAS.length = 7 := rfl

/-- The closure `getWeatherClass` on a string. -/
theorem getWeatherClass_str (w : String) : getWeatherClass (.str w) = .ok (styleClassFor w) := by
  unfold getWeatherClass styleClassFor
  simp only [includes]
  cases strIncludes w "雪" <;> cases strIncludes w "雨" <;> cases strIncludes w "晴" <;> rfl

/-- The closure `getWeatherIcon` on a string. -/
theorem getWeatherIcon_str (w : String) : getWeatherIcon (.str w) = .ok (iconFor w) := by
  unfold getWeatherIcon iconFor
  simp only [includes]
  cases strIncludes w "雪" <;> cases strIncludes w "雨" <;>
    cases strIncludes w "晴" <;> cases strIncludes w "曇" <;>
    cases strIncludes w "くもり" <;> rfl

/-- C7. On every string, `getWeatherIcon` completes and returns the icon of the
fixed precedence: snow marker first; then the rain marker, refined by the sun
marker, then by a cloud marker; then sun with cloud, sun alone, cloud alone; the
sparkle otherwise. The four examples of the specification are instances. -/
theorem getWeatherIcon_precedence :
    (∀ text : String, getWeatherIcon (.str text) = .ok (iconFor text)) ∧
    getWeatherIcon (.str "雪のち雨") = .ok "❄️" ∧
    getWeatherIcon (.str "晴れのち曇り") = .ok "🌤️" ∧
    getWeatherIcon (.str "雨") = .ok "☔" ∧
    getWeatherIcon (.str "曇り") = .ok "☁️" := by
  refine ⟨?_, rfl, rfl, rfl, rfl⟩
  intro text
  unfold getWeatherIcon iconFor
  simp only [includes]
  cases strIncludes text "雪" <;> cases strIncludes text "雨" <;>
    cases strIncludes text "晴" <;> cases strIncludes text "曇" <;>
    cases strIncludes text "くもり" <;> rfl

/-- C8. On every string, `getWeatherClass` completes and returns `status-snow`
when the text contains the snow marker, otherwise `status-rain` when it contains
the rain marker, otherwise `status-sun` when it contains the sun marker,
otherwise `status-cloud`; so the result is one of these four names, and a text
with none of the three markers gets `status-cloud`. -/
theorem getWeatherClass_precedence (text : String) :
    getWeatherClass (.str text) = .ok (styleClassFor text) ∧
    styleClassFor text ∈ ["status-snow", "status-rain", "status-sun", "status-cloud"] ∧
    (strIncludes text "雪" = false → strIncludes text "雨" = false →
      strIncludes text "晴" = false → getWeatherClass (.str text) = .ok "status-cloud") := by
  have h : getWeatherClass (.str text) = .ok (styleClassFor text) := by
    unfold getWeatherClass styleClassFor
    simp only [includes]
    cases strIncludes text "雪" <;> cases strIncludes text "雨" <;>
      cases strIncludes text "晴" <;> rfl
  refine ⟨h, ?_, ?_⟩
  · unfold styleClassFor
    cases strIncludes text "雪" <;> cases strIncludes text "雨" <;>
      cases strIncludes text "晴" <;> simp
  · intro h1 h2 h3
    rw [h]
    simp [styleClassFor, h1, h2, h3]

/-- C8, at a text with no marker. -/
theorem getWeatherClass_precedence_witness :
    getWeatherClass (.str "くもり") = .ok "status-cloud" :=
  (getWeatherClass_precedence "くもり").2.2 rfl rfl rfl

/-! ## The render function -/

/-- The `map` loop of the card container over string entries. -/
theorem mapFrom_weatherCard (chartData : List TempPoint) (showDetail : Bool) :
    ∀ (ws : List String) (i : Nat), ∃ cards : List Card,
      mapFrom (weatherCard chartData showDetail) (ws.map .str) i = .ok cards ∧
      cards.map (fun card => card.text) = ws.map .str ∧
      cards.map (fun card => card.icon) = ws.map iconFor ∧
      cards.map (fun card => card.weatherClass) = ws.map styleClassFor
  | [], _ => ⟨[], rfl, rfl, rfl, rfl⟩
  | w :: ws, i => by
    obtain ⟨cards, hcards, htext, hicon, hclass⟩ :=
      mapFrom_weatherCard chartData showDetail ws (i + 1)
    refine ⟨{ weatherClass := styleClassFor w
              clickable := i == 0
              badge := ["今日", "明日", "明後日"].getD i ""
              icon := iconFor w
              text := .str w
              tapHint := if i == 0 then some (if showDetail then "閉じる" else "気温") else none
              detail := if i == 0 && showDetail then some (detailView chartData) else none } ::
      cards, ?_, ?_, ?_, ?_⟩
    · simp only [List.map_cons, mapFrom, weatherCard, getWeatherClass_str, getWeatherIcon_str,
        hcards, bind, Except.bind, pure, Except.pure]
    · simp only [List.map_cons, htext]
    · simp only [List.map_cons, hicon]
    · simp only [List.map_cons, hclass]

/-- On a document whose first time-series block holds a first-area `weathers`
array of `n` strings, the card container completes with `min(3, n)` cards, in
order, each with the text, icon and class of its entry. -/
theorem cardContainer_of_strings (chartData : List TempPoint) (showDetail : Bool)
    (weatherData block : JSValue) (ws : List String)
    (hblock : timeSeriesAt weatherData 0 = .ok block)
    (hws : firstAreaField block "weathers" = .ok (.arr (ws.map .str))) :
    ∃ cards : List Card,
      cardContainer chartData showDetail weatherData = .ok cards ∧
      cards.length = min 3 ws.length ∧
      cards.map (fun card => card.text) = (ws.take 3).map .str ∧
      cards.map (fun card => card.icon) = (ws.take 3).map iconFor ∧
      cards.map (fun card => card.weatherClass) = (ws.take 3).map styleClassFor := by
  obtain ⟨cards, hcards, htext, hicon, hclass⟩ :=
    mapFrom_weatherCard chartData showDetail (ws.take 3) 0
  refine ⟨cards, ?_, ?_, htext, hicon, hclass⟩
  · simp only [cardContainer, hblock, hws, sliceMap, bind, Except.bind, ← List.map_take, hcards]
  · have := congrArg List.length htext
    simpa [List.length_take] using this

/-- C9. The claim is that rendering the card list of any fetched document does
not throw, and yields no cards when the document is malformed. The code does
otherwise: after a fetch that delivers the empty array the panel is neither
loading nor in error, and the component reads `weatherData[0].timeSeries` off
`undefined` outside any `try`, so the render throws. The same happens for the
documents `null`, `{}` and `[{}]`, on all of which `getTempData` returns the
empty sequence. -/
theorem Weather_throws_on_malformed_document (getHours : JSValue → String) :
    (loadedPanel (.arr [])).st.loading = false ∧
    (loadedPanel (.arr [])).st.error = none ∧
    Weather getHours (loadedPanel (.arr [])).st = .error .typeError ∧
    Weather getHours (loadedPanel .null).st = .error .typeError ∧
    Weather getHours (loadedPanel (.obj [])).st = .error .typeError ∧
    Weather getHours (loadedPanel (.arr [.obj []])).st = .error .typeError ∧
    getTempData getHours (.arr []) = .ok [] :=
  ⟨rfl, rfl, rfl, rfl, rfl, rfl, rfl⟩

/-! ## The state machine -/

/-- The seven region codes are pairwise distinct. -/
theorem areaCode_injective :
    ∀ i j : RegionIndex, (areaAt i).code = (areaAt j).code → i = j := by
  decide

/-- A fetch whose `mounted` flag is off changes no cell when it ends. -/
theorem settle_unmounted (r : FetchResult) (s : PanelState) : settle false r s = s := by
  cases r <;> rfl

/-- The cleanup keeps the number of effect runs. -/
theorem cleanup_length : ∀ l : List Bool, (cleanup l).length = l.length
  | [] => rfl
  | [_] => rfl
  | _ :: b :: l => by
    simp only [cleanup, List.length_cons, cleanup_length (b :: l)]

/-- After the cleanup the flag of the latest run is off. -/
theorem cleanup_last : ∀ l : List Bool, l ≠ [] → (cleanup l).get? (l.length - 1) = some false
  | [], h => absurd rfl h
  | [_], _ => rfl
  | _ :: b :: l, _ => by
    have ih := cleanup_last (b :: l) (by simp)
    simpa [cleanup] using ih

/-- After a new run of the effect, the flag of the run that was the latest is
off. -/
theorem runEffect_supersedes (p : Panel) (h : p.runs ≠ []) :
    (runEffect p).runs.get? (latestFetch p) = some false := by
  have hlt : p.runs.length - 1 < (cleanup p.runs).length := by
    rw [cleanup_length]
    have : 0 < p.runs.length := List.length_pos.mpr h
    omega
  simp only [runEffect, latestFetch]
  rw [List.get?_eq_getElem?, List.getElem?_append_left hlt, ← List.get?_eq_getElem?]
  exact cleanup_last p.runs h

/-- No event removes an effect run. -/
theorem step_runs_ne_nil (p : Panel) (e : Event) (h : p.runs ≠ []) : (step p e).runs ≠ [] := by
  cases e with
  | selectRegion i =>
    simp only [step, selectRegion]
    split
    · exact h
    · simp [runEffect]
  | fetchSettled k r =>
    simp only [step, fetchSettled]
    split
    · exact h
    · exact h
  | toggleDetail => exact h

/-- No sequence of events removes an effect run. -/
theorem run_runs_ne_nil : ∀ (es : List Event) (p : Panel), p.runs ≠ [] → (run p es).runs ≠ []
  | [], _, h => h
  | e :: es, p, h => run_runs_ne_nil es (step p e) (step_runs_ne_nil p e h)

/-- A reachable panel has run the effect at least once. -/
theorem reachable_runs_ne_nil (p : Panel) (h : Reachable p) : p.runs ≠ [] := by
  obtain ⟨es, rfl⟩ := h
  exact run_runs_ne_nil es init (by simp [init])

/-- A click on tab `i` selects region `i`. -/
theorem selectRegion_index (p : Panel) (i : RegionIndex) :
    (selectRegion p i).st.currentAreaIndex = i := by
  simp only [selectRegion]
  split <;> rfl

/-- A click on a tab removes no effect run. -/
theorem selectRegion_runs_ne_nil (p : Panel) (i : RegionIndex) (h : p.runs ≠ []) :
    (selectRegion p i).runs ≠ [] :=
  step_runs_ne_nil p (.selectRegion i) h

/-- A click on a tab with another region code runs the effect again. -/
theorem selectRegion_of_ne (q : Panel) (j : RegionIndex)
    (h : ¬ (areaAt j).code = (areaAt q.st.currentAreaIndex).code) :
    selectRegion q j = runEffect { q with st := { q.st with currentAreaIndex := j } } := by
  unfold selectRegion
  exact if_neg h

/-- A click on a tab with the current region code runs no effect. -/
theorem selectRegion_of_eq (q : Panel) (j : RegionIndex)
    (h : (areaAt j).code = (areaAt q.st.currentAreaIndex).code) :
    selectRegion q j = { q with st := { q.st with currentAreaIndex := j } } := by
  unfold selectRegion
  exact if_pos h

/-- The flag of a new effect run is on. -/
theorem cleanup_concat_last (l : List Bool) :
    (cleanup l ++ [true]).get? l.length = some true := by
  rw [List.get?_eq_getElem?, ← cleanup_length l, List.getElem?_concat_length]

/-- C1. Supersession. From every reachable state, for all region indices
`i ≠ j`: the fetch that is current after `SELECT_REGION(i)` (the one that
selection issues, with its `mounted` flag on, when `i` is not the selected
region) has its flag off after the immediately following `SELECT_REGION(j)`,
and its completion, with any document or any failure, leaves all five cells of
the panel state as they were before that completion. -/
theorem supersession (p : Panel) (hp : Reachable p) (i j : RegionIndex) (hij : i ≠ j)
    (r : FetchResult) :
    (i ≠ p.st.currentAreaIndex →
      latestFetch (run p [.selectRegion i]) = p.runs.length ∧
      (run p [.selectRegion i]).runs.get? p.runs.length = some true) ∧
    (run p [.selectRegion i, .selectRegion j]).runs.get?
        (latestFetch (run p [.selectRegion i])) = some false ∧
    (run p [.selectRegion i, .selectRegion j,
        .fetchSettled (latestFetch (run p [.selectRegion i])) r]).st =
      (run p [.selectRegion i, .selectRegion j]).st := by
  have hruns : (selectRegion p i).runs ≠ [] :=
    selectRegion_runs_ne_nil p i (reachable_runs_ne_nil p hp)
  have hcode : ¬ (areaAt j).code = (areaAt (selectRegion p i).st.currentAreaIndex).code := by
    rw [selectRegion_index]
    intro h
    exact hij (areaCode_injective j i h).symm
  have hoff : (selectRegion (selectRegion p i) j).runs.get? (latestFetch (selectRegion p i)) =
      some false := by
    rw [selectRegion_of_ne _ j hcode]
    exact runEffect_supersedes
      { (selectRegion p i) with st := { (selectRegion p i).st with currentAreaIndex := j } } hruns
  refine ⟨?_, hoff, ?_⟩
  · intro hne
    have hsel := selectRegion_of_ne p i fun hc => hne (areaCode_injective _ _ hc)
    show latestFetch (selectRegion p i) = p.runs.length ∧
      (selectRegion p i).runs.get? p.runs.length = some true
    rw [hsel]
    constructor
    · simp [latestFetch, runEffect, cleanup_length]
    · exact cleanup_concat_last p.runs
  · show (fetchSettled (selectRegion (selectRegion p i) j) (latestFetch (selectRegion p i)) r).st =
      (selectRegion (selectRegion p i) j).st
    unfold fetchSettled
    rw [hoff]
    exact settle_unmounted r _

/-- C1, from the mounted panel: tab 1, then tab 2, then the fetch of tab 1
delivers a document. -/
theorem supersession_witness :
    (run init [.selectRegion 1, .selectRegion 2,
        .fetchSettled (latestFetch (run init [.selectRegion 1]))
          (.json (forecastDoc .null .null))]).st =
      (run init [.selectRegion 1, .selectRegion 2]).st :=
  (supersession init ⟨[], rfl⟩ 1 2 (by decide) (.json (forecastDoc .null .null))).2.2

/-- C2, amended. For every panel and every region index `i` other than the
selected one, `SELECT_REGION(i)` produces `currentAreaIndex = i`,
`loading = true`, `showDetail = false`, and leaves `weatherData` and `error` as
they were: nothing clears the previous document or the previous fetch error.
Selecting the region that is already selected changes no cell. -/
theorem selectRegion_cells (p : Panel) (i : RegionIndex) :
    (i ≠ p.st.currentAreaIndex →
      (selectRegion p i).st =
        { currentAreaIndex := i, weatherData := p.st.weatherData, loading := true,
          error := p.st.error, showDetail := false }) ∧
    (i = p.st.currentAreaIndex → (selectRegion p i).st = p.st) := by
  constructor
  · intro h
    rw [selectRegion_of_ne p i fun hc => h (areaCode_injective _ _ hc)]
    rfl
  · intro h
    subst h
    rw [selectRegion_of_eq p _ rfl]

/-- C2, amended, on the panel that shows a fetched document with the detail
open: tab 1 is selected, then tab 1 again. -/
theorem selectRegion_cells_witness :
    (selectRegion (toggleDetail (loadedPanel (forecastDoc .null .null))) 1).st =
      { currentAreaIndex := 1, weatherData := forecastDoc .null .null, loading := true,
        error := none, showDetail := false } ∧
    (selectRegion (selectRegion (loadedPanel (forecastDoc .null .null)) 1) 1).st =
      (selectRegion (loadedPanel (forecastDoc .null .null)) 1).st :=
  ⟨(selectRegion_cells (toggleDetail (loadedPanel (forecastDoc .null .null))) 1).1 (by decide),
   (selectRegion_cells (selectRegion (loadedPanel (forecastDoc .null .null)) 1) 1).2 rfl⟩

/-- C2 as stated fails. On the panel that shows a fetched document, selecting
tab 1 keeps that document; on the panel that shows a fetch error, selecting
tab 1 keeps the error; and selecting the tab that is already active, with the
detail open, sets neither `loading` nor `showDetail`. -/
theorem select_keeps_document_and_error :
    (selectRegion (loadedPanel (forecastDoc .null .null)) 1).st.weatherData =
      forecastDoc .null .null ∧
    (selectRegion (loadedPanel (forecastDoc .null .null)) 1).st.weatherData ≠ .null ∧
    (selectRegion (run init [.fetchSettled 0 .badStatus]) 1).st.error = some "通信エラー" ∧
    (selectRegion (toggleDetail (loadedPanel (forecastDoc .null .null))) 0).st.loading = false ∧
    (selectRegion (toggleDetail (loadedPanel (forecastDoc .null .null))) 0).st.showDetail =
      true :=
  ⟨rfl, (by intro h; cases h), rfl, rfl, rfl⟩

/-- What the invariant of the loaded panel needs of an event: a fetch that
succeeds does not deliver `null`. -/
theorem step_loaded (p : Panel) (e : Event)
    (he : ∀ k d, e = .fetchSettled k (.json d) → d ≠ .null)
    (inv : p.st.loading = false → p.st.error = none → p.st.weatherData ≠ .null) :
    (step p e).st.loading = false → (step p e).st.error = none →
      (step p e).st.weatherData ≠ .null := by
  cases e with
  | selectRegion i =>
    simp only [step, selectRegion]
    split
    · exact inv
    · intro hl
      simp [runEffect] at hl
  | toggleDetail => exact inv
  | fetchSettled k r =>
    simp only [step, fetchSettled]
    cases p.runs.get? k with
    | none => exact inv
    | some mounted =>
      cases mounted with
      | false => simpa only [settle_unmounted] using inv
      | true =>
        cases r with
        | json d =>
          intro _ _
          exact he k d rfl
        | badStatus => intro _ herr; simp [settle] at herr
        | rejected m => intro _ herr; simp [settle] at herr
        | badBody m => intro _ herr; simp [settle] at herr

/-- The invariant of the loaded panel along a sequence of events. -/
theorem run_loaded : ∀ (es : List Event) (p : Panel),
    (∀ k d, Event.fetchSettled k (.json d) ∈ es → d ≠ .null) →
    (p.st.loading = false → p.st.error = none → p.st.weatherData ≠ .null) →
    (run p es).st.loading = false → (run p es).st.error = none →
      (run p es).st.weatherData ≠ .null
  | [], _, _, inv => inv
  | e :: es, p, hes, inv =>
    run_loaded es (step p e)
      (fun k d hmem => hes k d (List.mem_cons_of_mem _ hmem))
      (step_loaded p e (fun k d heq => hes k d (by simp [heq])) inv)

/-- C10, amended. From the initial state (`weatherData = null`,
`loading = true`, `error = null`, `showDetail = false`), after any sequence of
region selections, toggles and fetch completions gated by the `mounted` flag in
which no successful fetch delivers the value `null`, a state with
`loading = false` and `error = null` has `weatherData ≠ null`. -/
theorem loaded_document_not_null (es : List Event)
    (hes : ∀ k d, Event.fetchSettled k (.json d) ∈ es → d ≠ .null)
    (hloading : (run init es).st.loading = false) (herror : (run init es).st.error = none) :
    (run init es).st.weatherData ≠ .null :=
  run_loaded es init hes (fun h => by simp [init] at h) hloading herror

/-- C10, amended, on the run in which the first fetch is superseded by the
selection of tab 3 and fails afterwards, and the fetch of tab 3 delivers a
document. -/
theorem loaded_document_not_null_witness :
    (run init [.selectRegion 3, .fetchSettled 0 .badStatus,
        .fetchSettled 1 (.json (forecastDoc .null .null)), .toggleDetail]).st.weatherData ≠
      .null :=
  loaded_document_not_null
    [.selectRegion 3, .fetchSettled 0 .badStatus,
      .fetchSettled 1 (.json (forecastDoc .null .null)), .toggleDetail]
    (by
      intro k d hmem
      simp only [List.mem_cons, List.mem_singleton, List.not_mem_nil, reduceCtorEq, false_or,
        or_false, Event.fetchSettled.injEq, FetchResult.json.injEq] at hmem
      rcases hmem with ⟨_, hfalse⟩ | ⟨_, rfl⟩
      · exact hfalse.elim
      · intro h
        cases h)
    rfl rfl

/-- C10 as stated fails: when the first fetch delivers the JSON value `null`,
the panel reaches `loading = false`, `error = null`, `weatherData = null`, and
the render reads `weatherData[0]` off `null`. -/
theorem null_document_reaches_render :
    Reachable (loadedPanel .null) ∧
    (loadedPanel .null).st.loading = false ∧
    (loadedPanel .null).st.error = none ∧
    (loadedPanel .null).st.weatherData = .null ∧
    getIndex (loadedPanel .null).st.weatherData 0 = .error .typeError :=
  ⟨⟨[.fetchSettled 0 (.json .null)], rfl⟩, rfl, rfl, rfl, rfl⟩

end WeatherPanel
